import Mathlib

/-!
Shallow embedding of the oceanus-agent diagnosis workflow
(src/oceanus_agent/workflow and src/oceanus_agent/services), written to
check the repository's natural-language specification against the code.

Modelling conventions:
- The Python dict-based DiagnosisState (models/state.py) becomes a Lean
  structure with the same fields.
- External effects (MySQL, Milvus, LLM calls) are modelled by explicit
  outcome parameters passed to each node function; a raised exception is
  an outcome carrying the message str(e).
- Timestamps (datetime.now().isoformat()) are opaque strings passed in
  as a parameter named now.
- Python truthiness of an optional string field, as in
  state.get("error"), is modelled by optTruthy: none and the empty
  string are falsy, every other string is truthy.
- Python floats (confidence values, similarity scores, vectors) are
  modelled as rationals; the code only compares them.
- The regular expressions of accumulator.py are modelled
  character-exactly over ASCII; Python's character classes for digits
  and word characters are taken in their ASCII meaning.
-/

namespace OceanusAgent

/-- models/state.py: DiagnosisStatus -/
inductive DiagnosisStatus where
  | pending
  | in_progress
  | completed
  | failed
deriving DecidableEq, Repr

/-- models/state.py: JobInfo.  job_config is an opaque parsed-JSON
payload, irrelevant to every claim, kept as an optional string. -/
structure JobInfo where
  exception_id : Nat
  job_id : String
  job_name : Option String
  job_type : Option String
  job_config : Option String
  error_message : String
  error_type : Option String
  created_at : String
deriving DecidableEq, Repr

/-- models/state.py: RetrievedCase -/
structure RetrievedCase where
  case_id : String
  error_type : String
  error_pattern : String
  root_cause : String
  solution : String
  similarity_score : ℚ
deriving DecidableEq, Repr

/-- models/state.py: RetrievedDoc -/
structure RetrievedDoc where
  doc_id : String
  title : String
  content : String
  doc_url : Option String
  category : Option String
  similarity_score : ℚ
deriving DecidableEq, Repr

/-- models/state.py: RetrievedContext -/
structure RetrievedContext where
  similar_cases : List RetrievedCase
  doc_snippets : List RetrievedDoc
deriving DecidableEq, Repr

/-- models/state.py: DiagnosisResult -/
structure DiagnosisResult where
  root_cause : String
  detailed_analysis : String
  suggested_fix : String
  priority : String
  confidence : ℚ
  related_docs : List String
deriving DecidableEq, Repr

/-- models/state.py: DiagnosisState -/
structure DiagnosisState where
  job_info : Option JobInfo
  status : DiagnosisStatus
  retrieved_context : Option RetrievedContext
  diagnosis_result : Option DiagnosisResult
  start_time : String
  end_time : Option String
  error : Option String
  retry_count : Nat
deriving DecidableEq, Repr

/-- Python truthiness of an optional string: None and the empty string
are falsy.  Used wherever the source tests a field with a bare if. -/
def optTruthy : Option String → Bool
  | none => false
  | some s => decide (s ≠ "")

/-- graph.py DiagnosisWorkflow.run: the initial state of a run. -/
def initialState (t : String) : DiagnosisState :=
  { job_info := none
    status := DiagnosisStatus.pending
    retrieved_context := none
    diagnosis_result := none
    start_time := t
    end_time := none
    error := none
    retry_count := 0 }

/-- The nodes of the workflow graph (graph.py build_diagnosis_workflow),
with terminal standing for LangGraph's END. -/
inductive Node where
  | collect
  | retrieve
  | diagnose
  | store
  | accumulate
  | handle_error
  | terminal
deriving DecidableEq, Repr

/-- graph.py should_continue_after_collect, with the string results
"handle_error", END, "retrieve" mapped to the graph nodes they are wired
to in build_diagnosis_workflow. -/
def should_continue_after_collect (state : DiagnosisState) : Node :=
  if optTruthy state.error then Node.handle_error
  else if state.job_info.isNone then Node.terminal
  else Node.retrieve

/-- graph.py should_continue_after_diagnose (retry max hardcoded 3). -/
def should_continue_after_diagnose (state : DiagnosisState) : Node :=
  if optTruthy state.error then
    if state.retry_count < 3 then Node.diagnose
    else Node.handle_error
  else Node.store

/-- graph.py handle_error: returns the state with status FAILED and a
fresh end_time, all other fields unchanged. -/
def handle_error (now : String) (state : DiagnosisState) : DiagnosisState :=
  { state with
    status := DiagnosisStatus.failed
    end_time := some now }

/-- Outcome of mysql_service.get_pending_exception as observed by the
collect node: a claimed record, an empty queue, or a raised exception
carrying str(e). -/
inductive CollectOutcome where
  | found (job : JobInfo)
  | empty
  | raised (msg : String)

/-- nodes/collector.py JobCollector.__call__ -/
def jobCollector (o : CollectOutcome) (now : String)
    (state : DiagnosisState) : DiagnosisState :=
  match o with
  | CollectOutcome.found j =>
      { state with
        job_info := some j
        status := DiagnosisStatus.in_progress }
  | CollectOutcome.empty =>
      { state with
        job_info := none
        status := DiagnosisStatus.completed
        end_time := some now }
  | CollectOutcome.raised e =>
      { state with
        job_info := none
        status := DiagnosisStatus.failed
        error := some ("Collection error: " ++ e)
        end_time := some now }

/-- Outcome of the embedding plus the two Milvus searches as observed by
the retrieve node: either both result lists, or a raised exception
anywhere in the stage. -/
inductive RetrieveOutcome where
  | ok (cases : List RetrievedCase) (docs : List RetrievedDoc)
  | raised (msg : String)

/-- nodes/retriever.py KnowledgeRetriever.__call__ -/
def knowledgeRetriever (o : RetrieveOutcome)
    (state : DiagnosisState) : DiagnosisState :=
  match state.job_info with
  | none => state
  | some _ =>
      match o with
      | RetrieveOutcome.ok cs ds =>
          { state with retrieved_context := some ⟨cs, ds⟩ }
      | RetrieveOutcome.raised _ =>
          { state with retrieved_context := some ⟨[], []⟩ }

/-- Outcome of the LLM calls as observed by the diagnose node: success
carries the classification label (used only when error_type was unset)
and the structured diagnosis; failure carries str(e) of whichever call
raised. -/
inductive DiagnoseOutcome where
  | ok (label : String) (res : DiagnosisResult)
  | raised (msg : String)

/-- nodes/diagnoser.py LLMDiagnoser.__call__ (max_retries default 3).
On failure the locally classified job_info is not written back, matching
the source, which returns the original state fields there. -/
def llmDiagnoser (o : DiagnoseOutcome) (maxRetries : Nat) (now : String)
    (state : DiagnosisState) : DiagnosisState :=
  match state.job_info with
  | none => state
  | some ji =>
      match o with
      | DiagnoseOutcome.ok label res =>
          let ji' := if optTruthy ji.error_type then ji
                     else { ji with error_type := some label }
          { state with
            job_info := some ji'
            diagnosis_result := some res
            status := DiagnosisStatus.in_progress
            error := none
            retry_count := 0 }
      | DiagnoseOutcome.raised e =>
          let rc := state.retry_count + 1
          if rc ≥ maxRetries then
            { state with
              status := DiagnosisStatus.failed
              error := some ("Diagnosis failed after " ++ toString rc
                              ++ " retries: " ++ e)
              end_time := some now
              retry_count := rc }
          else
            { state with
              error := some e
              retry_count := rc }

/-- Outcome of the MySQL persistence call as observed by the store
node. -/
inductive StoreOutcome where
  | ok
  | raised (msg : String)

/-- nodes/storer.py ResultStorer.__call__ -/
def resultStorer (o : StoreOutcome) (now : String)
    (state : DiagnosisState) : DiagnosisState :=
  match state.job_info with
  | none => state
  | some _ =>
      match state.diagnosis_result with
      | some _ =>
          match o with
          | StoreOutcome.ok =>
              { state with
                status := DiagnosisStatus.completed
                end_time := some now }
          | StoreOutcome.raised e =>
              { state with
                status := DiagnosisStatus.failed
                error := some ("Storage error: " ++ e)
                end_time := some now }
      | none =>
          match o with
          | StoreOutcome.ok =>
              { state with
                status := DiagnosisStatus.failed
                end_time := some now }
          | StoreOutcome.raised e =>
              { state with
                status := DiagnosisStatus.failed
                error := some ("Storage error: " ++ e)
                end_time := some now }

/-! Character classes of the regular expressions in
accumulator.py KnowledgeAccumulator._extract_error_pattern, in their
ASCII meaning. -/

/-- the class [a-f0-9] -/
def isHexLower (c : Char) : Bool :=
  c.isDigit || (decide ('a' ≤ c) && decide (c ≤ 'f'))

/-- the class [a-fA-F0-9] -/
def isHexAny (c : Char) : Bool :=
  isHexLower c || (decide ('A' ≤ c) && decide (c ≤ 'F'))

/-- the class [\w] (ASCII) -/
def isWordChar (c : Char) : Bool :=
  c.isAlphanum || c = '_'

/-- the class [\w/.-] -/
def isPathChar (c : Char) : Bool :=
  isWordChar c || c = '/' || c = '.' || c = '-'

/-! Matchers: each models one regex of _extract_error_pattern, applied
at the start of the list.  A matcher returns the number of characters
the (leftmost-at-this-position, greedy) match consumes, or none.  Every
regex below either has a fixed width or ends in a greedy one-or-more
class with nothing after it, so maximal munch is exact. -/

/-- regex \d+ -/
def matchNum : List Char → Option Nat
  | [] => none
  | c :: rest =>
      if c.isDigit then some (1 + (rest.takeWhile Char.isDigit).length)
      else none

/-- regex [a-f0-9]{8}-[a-f0-9]{4}-[a-f0-9]{4}-[a-f0-9]{4}-[a-f0-9]{12}:
fixed width 36, hyphens at offsets 8, 13, 18, 23. -/
def matchUuid (l : List Char) : Option Nat :=
  if 36 ≤ l.length
     ∧ (l.take 8).all isHexLower = true
     ∧ (l.drop 8).take 1 = ['-']
     ∧ ((l.drop 9).take 4).all isHexLower = true
     ∧ (l.drop 13).take 1 = ['-']
     ∧ ((l.drop 14).take 4).all isHexLower = true
     ∧ (l.drop 18).take 1 = ['-']
     ∧ ((l.drop 19).take 4).all isHexLower = true
     ∧ (l.drop 23).take 1 = ['-']
     ∧ ((l.drop 24).take 12).all isHexLower = true
  then some 36 else none

/-- regex \d{4}-\d{2}-\d{2}[T ]\d{2}:\d{2}:\d{2}: fixed width 19. -/
def matchTs (l : List Char) : Option Nat :=
  if 19 ≤ l.length
     ∧ (l.take 4).all Char.isDigit = true
     ∧ (l.drop 4).take 1 = ['-']
     ∧ ((l.drop 5).take 2).all Char.isDigit = true
     ∧ (l.drop 7).take 1 = ['-']
     ∧ ((l.drop 8).take 2).all Char.isDigit = true
     ∧ ((l.drop 10).take 1 = ['T'] ∨ (l.drop 10).take 1 = [' '])
     ∧ ((l.drop 11).take 2).all Char.isDigit = true
     ∧ (l.drop 13).take 1 = [':']
     ∧ ((l.drop 14).take 2).all Char.isDigit = true
     ∧ (l.drop 16).take 1 = [':']
     ∧ ((l.drop 17).take 2).all Char.isDigit = true
  then some 19 else none

/-- regex 0x[a-fA-F0-9]+ -/
def matchAddr : List Char → Option Nat
  | c0 :: c1 :: c2 :: rest =>
      if c0 = '0' ∧ c1 = 'x' ∧ isHexAny c2 = true
      then some (3 + (rest.takeWhile isHexAny).length) else none
  | _ => none

/-- regex /[\w/.-]+ -/
def matchPath : List Char → Option Nat
  | c0 :: c1 :: rest =>
      if c0 = '/' ∧ isPathChar c1 = true
      then some (2 + (rest.takeWhile isPathChar).length) else none
  | _ => none

/-- re.sub for one of the matchers above: scan left to right; at each
position either the matcher consumes k ≥ 1 characters, which are
replaced by the placeholder ph, or one character is copied.  All the
matchers above consume at least one character on success, so the
(k - 1)-drop below consumes exactly the matched characters. -/
def reSub (m : List Char → Option Nat) (ph : List Char) :
    List Char → List Char
  | [] => []
  | c :: rest =>
      match m (c :: rest) with
      | some k => ph ++ reSub m ph (rest.drop (k - 1))
      | none => c :: reSub m ph rest
termination_by l => l.length
decreasing_by
  · simp only [List.length_drop, List.length_cons]
    omega
  · simp only [List.length_cons]
    omega

/-- accumulator.py: re.sub(r"\d+", "<NUM>", pattern) -/
def numSub (l : List Char) : List Char := reSub matchNum ("<NUM>".data) l

/-- accumulator.py: the UUID substitution, placeholder <UUID> -/
def uuidSub (l : List Char) : List Char := reSub matchUuid ("<UUID>".data) l

/-- accumulator.py: the timestamp substitution, placeholder <TIMESTAMP> -/
def tsSub (l : List Char) : List Char := reSub matchTs ("<TIMESTAMP>".data) l

/-- accumulator.py: the hex-address substitution, placeholder <ADDR> -/
def addrSub (l : List Char) : List Char := reSub matchAddr ("<ADDR>".data) l

/-- accumulator.py: the file-path substitution, placeholder <PATH> -/
def pathSub (l : List Char) : List Char := reSub matchPath ("<PATH>".data) l

/-- accumulator.py KnowledgeAccumulator._extract_error_pattern: the five
substitutions in source order, then pattern[:2000]. -/
def extract_error_pattern (msg : String) : String :=
  String.mk ((pathSub (addrSub (tsSub (uuidSub (numSub msg.data))))).take 2000)

/-- Python x or "other" on an optional string field (truthiness). -/
def orOther (o : Option String) : String :=
  match o with
  | some s => if s = "" then "other" else s
  | none => "other"

/-- Row written by milvus_service.MilvusService.insert_case (which
truncates the text fields as shown in the source). -/
structure MilvusCaseInsert where
  case_id : String
  vector : List ℚ
  error_type : String
  error_pattern : String
  root_cause : String
  solution : String
deriving DecidableEq, Repr

/-- milvus_service.py MilvusService.insert_case -/
def milvus_insert_case (case_id : String) (vector : List ℚ)
    (error_type error_pattern root_cause solution : String) :
    MilvusCaseInsert :=
  { case_id := case_id
    vector := vector
    error_type := error_type
    error_pattern := error_pattern.take 2000
    root_cause := root_cause.take 2000
    solution := solution.take 4000 }

/-- Row written by mysql_service.MySQLService.insert_knowledge_case
(verified is inserted as FALSE). -/
structure KnowledgeCaseRow where
  case_id : String
  error_type : String
  error_pattern : String
  root_cause : String
  solution : String
  source_exception_id : Option Nat
  source_type : String
  verified : Bool
deriving DecidableEq, Repr

/-- mysql_service.py MySQLService.insert_knowledge_case -/
def mysql_insert_knowledge_case (case_id : String)
    (error_type error_pattern root_cause solution : String)
    (source_exception_id : Option Nat) (source_type : String) :
    KnowledgeCaseRow :=
  { case_id := case_id
    error_type := error_type
    error_pattern := error_pattern
    root_cause := root_cause
    solution := solution
    source_exception_id := source_exception_id
    source_type := source_type
    verified := false }

/-- nodes/accumulator.py KnowledgeAccumulator.__call__.
Parameters model the external world of one invocation: the confidence
threshold from settings, the generated uuid-based case id, the outcome
of the embedding call (none models a raised exception; the text passed
to the embedding does not influence anything modelled here), and the
success of the two inserts (false models a raised insert, which
performs no write).  Returns the resulting state together with the
lists of rows written to Milvus and to MySQL; the try/except swallows
any failure, so the state is always returned unchanged. -/
def knowledgeAccumulator (threshold : ℚ) (caseId : String)
    (embedOut : Option (List ℚ)) (milvusOk mysqlOk : Bool)
    (state : DiagnosisState) :
    DiagnosisState × List MilvusCaseInsert × List KnowledgeCaseRow :=
  match state.job_info, state.diagnosis_result with
  | some ji, some d =>
      if d.confidence < threshold then (state, [], [])
      else
        let pat := extract_error_pattern ji.error_message
        match embedOut with
        | none => (state, [], [])
        | some v =>
            if milvusOk then
              let mRow := milvus_insert_case caseId v (orOther ji.error_type)
                pat d.root_cause d.suggested_fix
              if mysqlOk then
                (state, [mRow],
                 [mysql_insert_knowledge_case caseId (orOther ji.error_type)
                   pat d.root_cause d.suggested_fix (some ji.exception_id)
                   "auto"])
              else (state, [mRow], [])
            else (state, [], [])
  | _, _ => (state, [], [])

/-- One transition of the compiled workflow graph
(graph.py build_diagnosis_workflow): execute the node of the current
configuration under some outcome of its external calls, then follow the
graph's (conditional) edge.  terminal stands for END and has no
outgoing transition. -/
inductive Step : Node × DiagnosisState → Node × DiagnosisState → Prop where
  | collect (o : CollectOutcome) (now : String) (s : DiagnosisState) :
      Step (Node.collect, s)
        (should_continue_after_collect (jobCollector o now s),
         jobCollector o now s)
  | retrieve (o : RetrieveOutcome) (s : DiagnosisState) :
      Step (Node.retrieve, s) (Node.diagnose, knowledgeRetriever o s)
  | diagnose (o : DiagnoseOutcome) (now : String) (s : DiagnosisState) :
      Step (Node.diagnose, s)
        (should_continue_after_diagnose (llmDiagnoser o 3 now s),
         llmDiagnoser o 3 now s)
  | store (o : StoreOutcome) (now : String) (s : DiagnosisState) :
      Step (Node.store, s) (Node.accumulate, resultStorer o now s)
  | accumulate (threshold : ℚ) (caseId : String)
      (embedOut : Option (List ℚ)) (milvusOk mysqlOk : Bool)
      (s : DiagnosisState) :
      Step (Node.accumulate, s)
        (Node.terminal,
         (knowledgeAccumulator threshold caseId embedOut milvusOk mysqlOk
           s).1)
  | handle_error (now : String) (s : DiagnosisState) :
      Step (Node.handle_error, s) (Node.terminal, handle_error now s)

/-- A configuration reachable in some run: finitely many steps from the
entry node with the initial state of DiagnosisWorkflow.run. -/
def Reachable (c : Node × DiagnosisState) : Prop :=
  ∃ t, Relation.ReflTransGen Step (Node.collect, initialState t) c

/-- The invariant of spec section 3: status is COMPLETED or FAILED if
and only if end_time is set. -/
def StateInv (s : DiagnosisState) : Prop :=
  (s.status = DiagnosisStatus.completed ∨
   s.status = DiagnosisStatus.failed) ↔ s.end_time.isSome = true

/-- Strengthened inductive invariant: StateInv, plus the fact that
end_time is still unset while the run is at collect, retrieve or
diagnose. -/
def ConfigInv (c : Node × DiagnosisState) : Prop :=
  StateInv c.2 ∧
    ((c.1 = Node.collect ∨ c.1 = Node.retrieve ∨ c.1 = Node.diagnose) →
      c.2.end_time = none)

/-- needle occurs as a contiguous substring of hay. -/
def containsSub (needle hay : String) : Prop :=
  ∃ u v, u ++ needle.data ++ v = hay.data

/-! Sample data used by concrete witnesses and counterexamples. -/

/-- A sample claimed exception record. -/
def sampleJob : JobInfo :=
  { exception_id := 1
    job_id := "job-1"
    job_name := some "etl"
    job_type := none
    job_config := none
    error_message := "OutOfMemoryError at 0x1f in /opt/flink/task 42"
    error_type := some "resource"
    created_at := "2024-01-01 00:00:00" }

/-- A sample structured diagnosis with confidence 0.9. -/
def sampleDiagnosis : DiagnosisResult :=
  { root_cause := "heap exhausted"
    detailed_analysis := "the task manager ran out of heap"
    suggested_fix := "increase taskmanager memory"
    priority := "high"
    confidence := mkRat 9 10
    related_docs := [] }

/-- The state right after collect claimed sampleJob. -/
def sampleStateWithJob : DiagnosisState :=
  { initialState "2024-01-01T00:00:00" with
    job_info := some sampleJob
    status := DiagnosisStatus.in_progress }

/-- The state right before store or accumulate, carrying
sampleDiagnosis. -/
def sampleStoreReady : DiagnosisState :=
  { sampleStateWithJob with diagnosis_result := some sampleDiagnosis }

/-- A state that is already terminal with end_time set. -/
def sampleTerminalState : DiagnosisState :=
  { initialState "2024-01-01T00:00:00" with
    status := DiagnosisStatus.completed
    end_time := some "2024-01-01T00:30:00" }

/-! ## General helper lemmas -/

theorem optTruthy_some_iff (s : String) :
    optTruthy (some s) = true ↔ s ≠ "" := by
  simp [optTruthy]

theorem prefixed_ne_empty (pre e : String) (h : pre.data ≠ []) :
    pre ++ e ≠ "" := by
  intro hc
  apply h
  have hd := congrArg String.data hc
  rw [String.data_append] at hd
  exact (List.append_eq_nil.mp hd).1

/-! ## Claim C2: routing after collect -/

/-- Claim C2: for every state produced by the collect stage, the
post-collect routing routes to error-handling whenever error is set
(error takes precedence over job, for any state); with error unset it
terminates when job is null and goes to retrieve otherwise. -/
theorem collect_routing (s : DiagnosisState) (o : CollectOutcome)
    (now t : String) :
    (optTruthy s.error = true →
      should_continue_after_collect s = Node.handle_error) ∧
    ((jobCollector o now (initialState t)).error.isSome = true →
      should_continue_after_collect (jobCollector o now (initialState t)) =
        Node.handle_error) ∧
    ((jobCollector o now (initialState t)).error = none →
      (jobCollector o now (initialState t)).job_info = none →
      should_continue_after_collect (jobCollector o now (initialState t)) =
        Node.terminal) ∧
    ((jobCollector o now (initialState t)).error = none →
      (jobCollector o now (initialState t)).job_info.isSome = true →
      should_continue_after_collect (jobCollector o now (initialState t)) =
        Node.retrieve) := by
  refine ⟨fun h => by simp [should_continue_after_collect, h], ?_, ?_, ?_⟩
  · intro h
    cases o with
    | found j => simp [jobCollector, initialState] at h
    | empty => simp [jobCollector, initialState] at h
    | raised e =>
        have : optTruthy (some ("Collection error: " ++ e)) = true :=
          (optTruthy_some_iff _).mpr
            (prefixed_ne_empty "Collection error: " e (by decide))
        simp [should_continue_after_collect, jobCollector, this]
  · intro h hj
    cases o with
    | found j => simp [jobCollector, initialState] at hj
    | empty =>
        simp [should_continue_after_collect, jobCollector, initialState,
          optTruthy]
    | raised e => simp [jobCollector, initialState] at h
  · intro h hj
    cases o with
    | found j =>
        simp [should_continue_after_collect, jobCollector, initialState,
          optTruthy]
    | empty => simp [jobCollector, initialState] at hj
    | raised e => simp [jobCollector, initialState] at h

/-- Witness for C2 at concrete inputs: a raised claim routes to
error-handling, an empty queue terminates, a found record goes to
retrieve. -/
theorem collect_routing_witness :
    should_continue_after_collect
      (jobCollector (CollectOutcome.raised "db down") "T1" (initialState "T0")) =
      Node.handle_error ∧
    should_continue_after_collect
      (jobCollector CollectOutcome.empty "T1" (initialState "T0")) =
      Node.terminal ∧
    should_continue_after_collect
      (jobCollector (CollectOutcome.found sampleJob) "T1" (initialState "T0")) =
      Node.retrieve := by
  refine ⟨?_, ?_, ?_⟩
  · exact (collect_routing (initialState "T0") (CollectOutcome.raised "db down")
      "T1" "T0").2.1 (by decide)
  · exact (collect_routing (initialState "T0") CollectOutcome.empty
      "T1" "T0").2.2.1 (by decide) (by decide)
  · exact (collect_routing (initialState "T0") (CollectOutcome.found sampleJob)
      "T1" "T0").2.2.2 (by decide) (by decide)

/-! ## Claim C3: empty queue -/

/-- Claim C3: when the queue has no pending record, collect yields
job=null, status=COMPLETED and a set end_time, and the graph edge taken
from collect goes directly to the terminal node, so retrieve, diagnose
and store are never invoked. -/
theorem collect_empty_queue (t now : String) :
    (jobCollector CollectOutcome.empty now (initialState t)).job_info =
      none ∧
    (jobCollector CollectOutcome.empty now (initialState t)).status =
      DiagnosisStatus.completed ∧
    (jobCollector CollectOutcome.empty now (initialState t)).end_time =
      some now ∧
    should_continue_after_collect
      (jobCollector CollectOutcome.empty now (initialState t)) =
      Node.terminal ∧
    Step (Node.collect, initialState t)
      (Node.terminal, jobCollector CollectOutcome.empty now (initialState t)) := by
  have hroute : should_continue_after_collect
      (jobCollector CollectOutcome.empty now (initialState t)) =
      Node.terminal := by
    simp [should_continue_after_collect, jobCollector, initialState, optTruthy]
  refine ⟨rfl, rfl, rfl, hroute, ?_⟩
  have h := Step.collect CollectOutcome.empty now (initialState t)
  rwa [hroute] at h

/-! ## Claim C5: retrieval failure is absorbed -/

/-- Claim C5: with a job present, a failing retrieve does not set
error and does not propagate: it only replaces retrieved_context by
empty lists, and every transition out of the retrieve node goes to
diagnose. -/
theorem retrieve_failure_swallowed (s : DiagnosisState) (ji : JobInfo)
    (e : String) (hj : s.job_info = some ji) :
    knowledgeRetriever (RetrieveOutcome.raised e) s =
      { s with retrieved_context := some ⟨[], []⟩ } ∧
    (knowledgeRetriever (RetrieveOutcome.raised e) s).error = s.error ∧
    ∀ c, Step (Node.retrieve, s) c → c.1 = Node.diagnose := by
  refine ⟨?_, ?_, ?_⟩
  · simp [knowledgeRetriever, hj]
  · simp [knowledgeRetriever, hj]
  · intro c h
    cases h
    rfl

/-- Witness for C5 at a concrete state with a job. -/
theorem retrieve_failure_swallowed_witness :
    knowledgeRetriever (RetrieveOutcome.raised "connection refused")
        sampleStateWithJob =
      { sampleStateWithJob with retrieved_context := some ⟨[], []⟩ } ∧
    (knowledgeRetriever (RetrieveOutcome.raised "connection refused")
        sampleStateWithJob).error = none ∧
    (Node.diagnose,
      knowledgeRetriever (RetrieveOutcome.ok [] []) sampleStateWithJob).1 =
      Node.diagnose := by
  have h := retrieve_failure_swallowed sampleStateWithJob sampleJob
    "connection refused" rfl
  exact ⟨h.1, h.2.1, h.2.2 _ (Step.retrieve (RetrieveOutcome.ok [] [])
    sampleStateWithJob)⟩

/-! ## Claim C8 (corrected): error-handling is an unconditional
overwrite, not a conditional one -/

/-- Claim C8, amended: graph.py handle_error always sets status=FAILED
and always sets end_time to the current time, whether or not the input
state was already terminal; every other field is passed through
unchanged. -/
theorem handle_error_unconditional (now : String) (s : DiagnosisState) :
    (handle_error now s).status = DiagnosisStatus.failed ∧
    (handle_error now s).end_time = some now ∧
    (handle_error now s).job_info = s.job_info ∧
    (handle_error now s).retrieved_context = s.retrieved_context ∧
    (handle_error now s).diagnosis_result = s.diagnosis_result ∧
    (handle_error now s).start_time = s.start_time ∧
    (handle_error now s).error = s.error ∧
    (handle_error now s).retry_count = s.retry_count :=
  ⟨rfl, rfl, rfl, rfl, rfl, rfl, rfl, rfl⟩

/-- Counterexample to C8 as stated: on an input that already has a
terminal status (COMPLETED) and a set end_time, handle_error does not
pass the state through unchanged; it overwrites both fields. -/
theorem handle_error_pass_through_counterexample :
    handle_error "2024-01-02T00:00:00" sampleTerminalState ≠
      sampleTerminalState ∧
    (handle_error "2024-01-02T00:00:00" sampleTerminalState).status =
      DiagnosisStatus.failed ∧
    sampleTerminalState.status = DiagnosisStatus.completed ∧
    sampleTerminalState.end_time.isSome = true ∧
    (handle_error "2024-01-02T00:00:00" sampleTerminalState).end_time ≠
      sampleTerminalState.end_time := by
  refine ⟨?_, rfl, rfl, rfl, by decide⟩
  intro h
  have := congrArg DiagnosisState.status h
  simp [handle_error, sampleTerminalState, initialState] at this

/-! ## Helper lemmas about the diagnose node and its routing -/

theorem knowledgeRetriever_frame (o : RetrieveOutcome) (s : DiagnosisState) :
    (knowledgeRetriever o s).job_info = s.job_info ∧
    (knowledgeRetriever o s).error = s.error ∧
    (knowledgeRetriever o s).retry_count = s.retry_count ∧
    (knowledgeRetriever o s).status = s.status ∧
    (knowledgeRetriever o s).end_time = s.end_time ∧
    (knowledgeRetriever o s).diagnosis_result = s.diagnosis_result := by
  cases h : s.job_info <;> cases o <;> simp [knowledgeRetriever, h]

theorem llmDiagnoser_raised_of_lt (s : DiagnosisState) (ji : JobInfo)
    (e now : String) (hj : s.job_info = some ji)
    (h : s.retry_count + 1 < 3) :
    llmDiagnoser (DiagnoseOutcome.raised e) 3 now s =
      { s with error := some e, retry_count := s.retry_count + 1 } := by
  simp only [llmDiagnoser, hj]
  rw [if_neg (by omega)]

theorem llmDiagnoser_raised_of_max (s : DiagnosisState) (ji : JobInfo)
    (e now : String) (hj : s.job_info = some ji)
    (h : 3 ≤ s.retry_count + 1) :
    llmDiagnoser (DiagnoseOutcome.raised e) 3 now s =
      { s with
        status := DiagnosisStatus.failed
        error := some ("Diagnosis failed after " ++ toString (s.retry_count + 1) ++ " retries: " ++ e)
        end_time := some now
        retry_count := s.retry_count + 1 } := by
  simp only [llmDiagnoser, hj]
  rw [if_pos (by omega)]

theorem llmDiagnoser_ok_eq (s : DiagnosisState) (ji : JobInfo)
    (label : String) (res : DiagnosisResult) (now : String)
    (hj : s.job_info = some ji) :
    llmDiagnoser (DiagnoseOutcome.ok label res) 3 now s =
      { s with
        job_info := some (if optTruthy ji.error_type then ji else { ji with error_type := some label })
        diagnosis_result := some res
        status := DiagnosisStatus.in_progress
        error := none
        retry_count := 0 } := by
  simp only [llmDiagnoser, hj]

theorem route_diagnose_retry (s : DiagnosisState)
    (h : optTruthy s.error = true) (h2 : s.retry_count < 3) :
    should_continue_after_diagnose s = Node.diagnose := by
  simp [should_continue_after_diagnose, h, h2]

theorem route_diagnose_exhausted (s : DiagnosisState)
    (h : optTruthy s.error = true) (h2 : ¬ s.retry_count < 3) :
    should_continue_after_diagnose s = Node.handle_error := by
  simp [should_continue_after_diagnose, h, h2]

theorem route_diagnose_store (s : DiagnosisState)
    (h : optTruthy s.error = false) :
    should_continue_after_diagnose s = Node.store := by
  simp [should_continue_after_diagnose, h]

theorem retries_msg_contains (e : String) :
    containsSub "after 3 retries" ("Diagnosis failed after 3 retries: " ++ e) := by
  refine ⟨"Diagnosis failed ".data, ": ".data ++ e.data, ?_⟩
  rw [String.data_append]
  have hcat : ("Diagnosis failed ".data ++ "after 3 retries".data ++ ": ".data : List Char) =
      "Diagnosis failed after 3 retries: ".data := by decide
  calc "Diagnosis failed ".data ++ "after 3 retries".data ++ (": ".data ++ e.data)
      = ("Diagnosis failed ".data ++ "after 3 retries".data ++ ": ".data) ++ e.data := by
        simp [List.append_assoc]
    _ = "Diagnosis failed after 3 retries: ".data ++ e.data := by rw [hcat]

theorem retries_msg_pre (e : String) :
    ("Diagnosis failed after " ++ toString (2 + 1 : ℕ) ++ " retries: " ++ e : String) =
      "Diagnosis failed after 3 retries: " ++ e := by
  have h : ("Diagnosis failed after " ++ toString (2 + 1 : ℕ) ++ " retries: " : String) =
      "Diagnosis failed after 3 retries: " := by decide
  rw [show ("Diagnosis failed after " ++ toString (2 + 1 : ℕ) ++ " retries: " ++ e : String) =
      ("Diagnosis failed after " ++ toString (2 + 1 : ℕ) ++ " retries: ") ++ e from rfl, h]

/-! ## Claim C1 (corrected): retry discipline of diagnose -/

/-- Claim C1, amended: every failed diagnose attempt (job present)
increments retry_count by exactly 1; when the failure detail is a
non-empty string and the updated retry_count is below 3 the workflow
re-enters diagnose; when retry_count reaches 3 the run routes to
error-handling with status FAILED, end_time set, and an error message
containing "after 3 retries"; and a run with three consecutive
non-empty diagnose failures enters diagnose exactly 3 times (the first
entry plus max-1 = 2 re-entries), never reaches store, and ends FAILED
at the terminal node. -/
theorem diagnose_retry_discipline :
    (∀ (s : DiagnosisState) (ji : JobInfo) (e now : String),
      s.job_info = some ji →
      (llmDiagnoser (DiagnoseOutcome.raised e) 3 now s).retry_count =
        s.retry_count + 1) ∧
    (∀ (s : DiagnosisState) (ji : JobInfo) (e now : String),
      s.job_info = some ji → e ≠ "" → s.retry_count + 1 < 3 →
      should_continue_after_diagnose
        (llmDiagnoser (DiagnoseOutcome.raised e) 3 now s) = Node.diagnose) ∧
    (∀ (s : DiagnosisState) (ji : JobInfo) (e now : String),
      s.job_info = some ji → s.retry_count = 2 →
      (llmDiagnoser (DiagnoseOutcome.raised e) 3 now s).retry_count = 3 ∧
      (llmDiagnoser (DiagnoseOutcome.raised e) 3 now s).status =
        DiagnosisStatus.failed ∧
      (llmDiagnoser (DiagnoseOutcome.raised e) 3 now s).end_time = some now ∧
      should_continue_after_diagnose
        (llmDiagnoser (DiagnoseOutcome.raised e) 3 now s) =
        Node.handle_error ∧
      ∃ msg, (llmDiagnoser (DiagnoseOutcome.raised e) 3 now s).error =
          some msg ∧ containsSub "after 3 retries" msg) ∧
    (∀ (t now : String) (j : JobInfo) (ro : RetrieveOutcome)
      (e₁ e₂ e₃ : String) (s₁ s₂ s₃ s₄ s₅ s₆ : DiagnosisState),
      e₁ ≠ "" → e₂ ≠ "" →
      s₁ = jobCollector (CollectOutcome.found j) now (initialState t) →
      s₂ = knowledgeRetriever ro s₁ →
      s₃ = llmDiagnoser (DiagnoseOutcome.raised e₁) 3 now s₂ →
      s₄ = llmDiagnoser (DiagnoseOutcome.raised e₂) 3 now s₃ →
      s₅ = llmDiagnoser (DiagnoseOutcome.raised e₃) 3 now s₄ →
      s₆ = handle_error now s₅ →
      List.Chain' Step [(Node.collect, initialState t), (Node.retrieve, s₁),
        (Node.diagnose, s₂), (Node.diagnose, s₃), (Node.diagnose, s₄),
        (Node.handle_error, s₅), (Node.terminal, s₆)] ∧
      s₅.status = DiagnosisStatus.failed ∧ s₅.retry_count = 3 ∧
      s₅.end_time = some now ∧
      (∃ msg, s₅.error = some msg ∧ containsSub "after 3 retries" msg) ∧
      s₆.status = DiagnosisStatus.failed ∧
      List.count Node.diagnose
        (List.map Prod.fst [(Node.collect, initialState t),
          (Node.retrieve, s₁), (Node.diagnose, s₂), (Node.diagnose, s₃),
          (Node.diagnose, s₄), (Node.handle_error, s₅),
          (Node.terminal, s₆)]) = 3 ∧
      List.count Node.store
        (List.map Prod.fst [(Node.collect, initialState t),
          (Node.retrieve, s₁), (Node.diagnose, s₂), (Node.diagnose, s₃),
          (Node.diagnose, s₄), (Node.handle_error, s₅),
          (Node.terminal, s₆)]) = 0) := by
  refine ⟨?incr, ?reenter, ?exhaust, ?scenario⟩
  case incr =>
    intro s ji e now hj
    by_cases h : s.retry_count + 1 < 3
    · rw [llmDiagnoser_raised_of_lt s ji e now hj h]
    · rw [llmDiagnoser_raised_of_max s ji e now hj (by omega)]
  case reenter =>
    intro s ji e now hj he h
    rw [llmDiagnoser_raised_of_lt s ji e now hj h]
    exact route_diagnose_retry _ ((optTruthy_some_iff e).mpr he) (by simpa using h)
  case exhaust =>
    intro s ji e now hj hrc
    rw [llmDiagnoser_raised_of_max s ji e now hj (by omega), hrc]
    refine ⟨rfl, rfl, rfl, ?_, ?_⟩
    · refine route_diagnose_exhausted _ ?_ (by simp)
      exact (optTruthy_some_iff _).mpr
        (by rw [retries_msg_pre]
            exact prefixed_ne_empty "Diagnosis failed after 3 retries: " e
              (by decide))
    · exact ⟨_, rfl, by rw [retries_msg_pre]; exact retries_msg_contains e⟩
  case scenario =>
    intro t now j ro e₁ e₂ e₃ s₁ s₂ s₃ s₄ s₅ s₆ he₁ he₂ h₁ h₂ h₃ h₄ h₅ h₆
    have h₁job : s₁.job_info = some j := by rw [h₁]; rfl
    have h₁err : s₁.error = none := by rw [h₁]; rfl
    have h₁rc : s₁.retry_count = 0 := by rw [h₁]; rfl
    have hf := knowledgeRetriever_frame ro s₁
    have h₂job : s₂.job_info = some j := by rw [h₂, hf.1, h₁job]
    have h₂err : s₂.error = none := by rw [h₂, hf.2.1, h₁err]
    have h₂rc : s₂.retry_count = 0 := by rw [h₂, hf.2.2.1, h₁rc]
    have h₃eq : s₃ = { s₂ with error := some e₁, retry_count := 1 } := by
      rw [h₃, llmDiagnoser_raised_of_lt s₂ j e₁ now h₂job (by omega), h₂rc]
    have h₃job : s₃.job_info = some j := by rw [h₃eq]; exact h₂job
    have h₃rc : s₃.retry_count = 1 := by rw [h₃eq]
    have h₃err : s₃.error = some e₁ := by rw [h₃eq]
    have h₄eq : s₄ = { s₃ with error := some e₂, retry_count := 2 } := by
      rw [h₄, llmDiagnoser_raised_of_lt s₃ j e₂ now h₃job (by omega), h₃rc]
    have h₄job : s₄.job_info = some j := by rw [h₄eq]; exact h₃job
    have h₄rc : s₄.retry_count = 2 := by rw [h₄eq]
    have h₄err : s₄.error = some e₂ := by rw [h₄eq]
    have h₅eq : s₅ = { s₄ with
        status := DiagnosisStatus.failed
        error := some ("Diagnosis failed after 3 retries: " ++ e₃)
        end_time := some now
        retry_count := 3 } := by
      rw [h₅, llmDiagnoser_raised_of_max s₄ j e₃ now h₄job (by omega), h₄rc,
        retries_msg_pre]
    have h₅stat : s₅.status = DiagnosisStatus.failed := by rw [h₅eq]
    have h₅rc : s₅.retry_count = 3 := by rw [h₅eq]
    have h₅end : s₅.end_time = some now := by rw [h₅eq]
    have h₅err : s₅.error = some ("Diagnosis failed after 3 retries: " ++ e₃) := by
      rw [h₅eq]
    have h₅errT : optTruthy s₅.error = true := by
      rw [h₅err]
      exact (optTruthy_some_iff _).mpr
        (prefixed_ne_empty "Diagnosis failed after 3 retries: " e₃ (by decide))
    refine ⟨?_, h₅stat, h₅rc, h₅end,
      ⟨_, h₅err, retries_msg_contains e₃⟩, by rw [h₆]; rfl,
      by simp [List.count_cons], by simp [List.count_cons]⟩
    have step₁ : Step (Node.collect, initialState t) (Node.retrieve, s₁) := by
      have hr : should_continue_after_collect s₁ = Node.retrieve := by
        simp [should_continue_after_collect, h₁err, h₁job, optTruthy]
      have h := Step.collect (CollectOutcome.found j) now (initialState t)
      rw [← h₁] at h
      rwa [hr] at h
    have step₂ : Step (Node.retrieve, s₁) (Node.diagnose, s₂) := by
      have h := Step.retrieve ro s₁
      rwa [← h₂] at h
    have step₃ : Step (Node.diagnose, s₂) (Node.diagnose, s₃) := by
      have hr : should_continue_after_diagnose s₃ = Node.diagnose :=
        route_diagnose_retry s₃
          (by rw [h₃err]; exact (optTruthy_some_iff e₁).mpr he₁)
          (by omega)
      have h := Step.diagnose (DiagnoseOutcome.raised e₁) now s₂
      rw [← h₃] at h
      rwa [hr] at h
    have step₄ : Step (Node.diagnose, s₃) (Node.diagnose, s₄) := by
      have hr : should_continue_after_diagnose s₄ = Node.diagnose :=
        route_diagnose_retry s₄
          (by rw [h₄err]; exact (optTruthy_some_iff e₂).mpr he₂)
          (by omega)
      have h := Step.diagnose (DiagnoseOutcome.raised e₂) now s₃
      rw [← h₄] at h
      rwa [hr] at h
    have step₅ : Step (Node.diagnose, s₄) (Node.handle_error, s₅) := by
      have hr : should_continue_after_diagnose s₅ = Node.handle_error :=
        route_diagnose_exhausted s₅ h₅errT (by omega)
      have h := Step.diagnose (DiagnoseOutcome.raised e₃) now s₄
      rw [← h₅] at h
      rwa [hr] at h
    have step₆ : Step (Node.handle_error, s₅) (Node.terminal, s₆) := by
      have h := Step.handle_error now s₅
      rwa [← h₆] at h
    exact List.chain'_cons.mpr ⟨step₁, List.chain'_cons.mpr ⟨step₂,
      List.chain'_cons.mpr ⟨step₃, List.chain'_cons.mpr ⟨step₄,
      List.chain'_cons.mpr ⟨step₅, List.chain'_cons.mpr ⟨step₆,
      List.chain'_singleton _⟩⟩⟩⟩⟩⟩

/-- Counterexample to C1 as stated: a diagnose failure whose exception
stringifies to the empty string increments retry_count to 1 < 3, yet
the workflow routes to store, not back into diagnose, because the
routing predicate tests Python truthiness of the error field and the
empty string is falsy. -/
theorem diagnose_retry_counterexample :
    (llmDiagnoser (DiagnoseOutcome.raised "") 3 "2024-01-01T00:05:00"
        sampleStateWithJob).retry_count = 1 ∧
    (llmDiagnoser (DiagnoseOutcome.raised "") 3 "2024-01-01T00:05:00"
        sampleStateWithJob).retry_count < 3 ∧
    should_continue_after_diagnose
      (llmDiagnoser (DiagnoseOutcome.raised "") 3 "2024-01-01T00:05:00"
        sampleStateWithJob) ≠ Node.diagnose ∧
    should_continue_after_diagnose
      (llmDiagnoser (DiagnoseOutcome.raised "") 3 "2024-01-01T00:05:00"
        sampleStateWithJob) = Node.store := by
  refine ⟨by decide, by decide, by decide, by decide⟩

/-- Witness for C1 at concrete inputs: a first non-empty failure
re-enters diagnose, and a third failure exhausts the retries. -/
theorem diagnose_retry_discipline_witness :
    (llmDiagnoser (DiagnoseOutcome.raised "llm timeout") 3 "T1"
        sampleStateWithJob).retry_count = 0 + 1 ∧
    should_continue_after_diagnose
      (llmDiagnoser (DiagnoseOutcome.raised "llm timeout") 3 "T1"
        sampleStateWithJob) = Node.diagnose ∧
    should_continue_after_diagnose
      (llmDiagnoser (DiagnoseOutcome.raised "llm timeout") 3 "T1"
        { sampleStateWithJob with retry_count := 2 }) =
      Node.handle_error := by
  refine ⟨?_, ?_, ?_⟩
  · have h := diagnose_retry_discipline.1 sampleStateWithJob sampleJob
      "llm timeout" "T1" rfl
    simpa using h
  · exact diagnose_retry_discipline.2.1 sampleStateWithJob sampleJob
      "llm timeout" "T1" rfl (by decide) (by decide)
  · exact (diagnose_retry_discipline.2.2.1
      { sampleStateWithJob with retry_count := 2 } sampleJob
      "llm timeout" "T1" rfl rfl).2.2.2.1

/-! ## Claim C7: successful diagnose and the retry-then-success run -/

theorem resultStorer_ok_diag (s : DiagnosisState) (ji : JobInfo)
    (d : DiagnosisResult) (now : String) (hj : s.job_info = some ji)
    (hd : s.diagnosis_result = some d) :
    resultStorer StoreOutcome.ok now s =
      { s with status := DiagnosisStatus.completed, end_time := some now } := by
  simp only [resultStorer, hj, hd]

theorem knowledgeAccumulator_fst (threshold : ℚ) (cid : String)
    (emb : Option (List ℚ)) (mOk uOk : Bool) (s : DiagnosisState) :
    (knowledgeAccumulator threshold cid emb mOk uOk s).1 = s := by
  rcases h1 : s.job_info with _ | ji <;>
    rcases h2 : s.diagnosis_result with _ | d <;>
      simp only [knowledgeAccumulator, h1, h2]
  rcases emb with _ | v <;> rcases mOk with _ | _ <;>
    rcases uOk with _ | _ <;> split <;> rfl

/-- Claim C7: a successful diagnose sets the diagnosis, clears error,
resets retry_count to 0, keeps status IN_PROGRESS and routes to store;
and a run whose diagnose fails twice (with non-empty detail) and
succeeds on the third attempt reaches store exactly once and ends at
the terminal node with status COMPLETED and retry_count 0. -/
theorem diagnose_success_and_recovery :
    (∀ (s : DiagnosisState) (ji : JobInfo) (label : String)
      (res : DiagnosisResult) (now : String),
      s.job_info = some ji →
      (llmDiagnoser (DiagnoseOutcome.ok label res) 3 now s).diagnosis_result =
        some res ∧
      (llmDiagnoser (DiagnoseOutcome.ok label res) 3 now s).error = none ∧
      (llmDiagnoser (DiagnoseOutcome.ok label res) 3 now s).retry_count = 0 ∧
      (llmDiagnoser (DiagnoseOutcome.ok label res) 3 now s).status =
        DiagnosisStatus.in_progress ∧
      should_continue_after_diagnose
        (llmDiagnoser (DiagnoseOutcome.ok label res) 3 now s) = Node.store) ∧
    (∀ (t now : String) (j : JobInfo) (ro : RetrieveOutcome)
      (e₁ e₂ label : String) (res : DiagnosisResult)
      (threshold : ℚ) (cid : String) (emb : Option (List ℚ)) (mOk uOk : Bool)
      (s₁ s₂ s₃ s₄ s₅ s₆ s₇ : DiagnosisState),
      e₁ ≠ "" → e₂ ≠ "" →
      s₁ = jobCollector (CollectOutcome.found j) now (initialState t) →
      s₂ = knowledgeRetriever ro s₁ →
      s₃ = llmDiagnoser (DiagnoseOutcome.raised e₁) 3 now s₂ →
      s₄ = llmDiagnoser (DiagnoseOutcome.raised e₂) 3 now s₃ →
      s₅ = llmDiagnoser (DiagnoseOutcome.ok label res) 3 now s₄ →
      s₆ = resultStorer StoreOutcome.ok now s₅ →
      s₇ = (knowledgeAccumulator threshold cid emb mOk uOk s₆).1 →
      List.Chain' Step [(Node.collect, initialState t), (Node.retrieve, s₁),
        (Node.diagnose, s₂), (Node.diagnose, s₃), (Node.diagnose, s₄),
        (Node.store, s₅), (Node.accumulate, s₆), (Node.terminal, s₇)] ∧
      s₇.status = DiagnosisStatus.completed ∧ s₇.retry_count = 0 ∧
      List.count Node.store
        (List.map Prod.fst [(Node.collect, initialState t),
          (Node.retrieve, s₁), (Node.diagnose, s₂), (Node.diagnose, s₃),
          (Node.diagnose, s₄), (Node.store, s₅), (Node.accumulate, s₆),
          (Node.terminal, s₇)]) = 1) := by
  constructor
  case left =>
    intro s ji label res now hj
    rw [llmDiagnoser_ok_eq s ji label res now hj]
    exact ⟨rfl, rfl, rfl, rfl, route_diagnose_store _ rfl⟩
  case right =>
    intro t now j ro e₁ e₂ label res threshold cid emb mOk uOk
      s₁ s₂ s₃ s₄ s₅ s₆ s₇ he₁ he₂ h₁ h₂ h₃ h₄ h₅ h₆ h₇
    have h₁job : s₁.job_info = some j := by rw [h₁]; rfl
    have h₁err : s₁.error = none := by rw [h₁]; rfl
    have h₁rc : s₁.retry_count = 0 := by rw [h₁]; rfl
    have hf := knowledgeRetriever_frame ro s₁
    have h₂job : s₂.job_info = some j := by rw [h₂, hf.1, h₁job]
    have h₂err : s₂.error = none := by rw [h₂, hf.2.1, h₁err]
    have h₂rc : s₂.retry_count = 0 := by rw [h₂, hf.2.2.1, h₁rc]
    have h₃eq : s₃ = { s₂ with error := some e₁, retry_count := 1 } := by
      rw [h₃, llmDiagnoser_raised_of_lt s₂ j e₁ now h₂job (by omega), h₂rc]
    have h₃job : s₃.job_info = some j := by rw [h₃eq]; exact h₂job
    have h₃rc : s₃.retry_count = 1 := by rw [h₃eq]
    have h₃err : s₃.error = some e₁ := by rw [h₃eq]
    have h₄eq : s₄ = { s₃ with error := some e₂, retry_count := 2 } := by
      rw [h₄, llmDiagnoser_raised_of_lt s₃ j e₂ now h₃job (by omega), h₃rc]
    have h₄job : s₄.job_info = some j := by rw [h₄eq]; exact h₃job
    have h₄rc : s₄.retry_count = 2 := by rw [h₄eq]
    have h₄err : s₄.error = some e₂ := by rw [h₄eq]
    have h₅eq : s₅ = { s₄ with
        job_info := some (if optTruthy j.error_type then j else { j with error_type := some label })
        diagnosis_result := some res
        status := DiagnosisStatus.in_progress
        error := none
        retry_count := 0 } := by
      rw [h₅, llmDiagnoser_ok_eq s₄ j label res now h₄job]
    have h₅job : s₅.job_info.isSome = true := by rw [h₅eq]; rfl
    have h₅diag : s₅.diagnosis_result = some res := by rw [h₅eq]
    have h₅err : s₅.error = none := by rw [h₅eq]
    have h₅rc : s₅.retry_count = 0 := by rw [h₅eq]
    obtain ⟨ji', hji'⟩ := Option.isSome_iff_exists.mp h₅job
    have h₆eq : s₆ = { s₅ with status := DiagnosisStatus.completed, end_time := some now } := by
      rw [h₆, resultStorer_ok_diag s₅ ji' res now hji' h₅diag]
    have h₇eq : s₇ = s₆ := by
      rw [h₇, knowledgeAccumulator_fst]
    refine ⟨?_, by rw [h₇eq, h₆eq], by rw [h₇eq, h₆eq]; exact h₅rc,
      by simp [List.count_cons]⟩
    have step₁ : Step (Node.collect, initialState t) (Node.retrieve, s₁) := by
      have hr : should_continue_after_collect s₁ = Node.retrieve := by
        simp [should_continue_after_collect, h₁err, h₁job, optTruthy]
      have h := Step.collect (CollectOutcome.found j) now (initialState t)
      rw [← h₁] at h
      rwa [hr] at h
    have step₂ : Step (Node.retrieve, s₁) (Node.diagnose, s₂) := by
      have h := Step.retrieve ro s₁
      rwa [← h₂] at h
    have step₃ : Step (Node.diagnose, s₂) (Node.diagnose, s₃) := by
      have hr : should_continue_after_diagnose s₃ = Node.diagnose :=
        route_diagnose_retry s₃
          (by rw [h₃err]; exact (optTruthy_some_iff e₁).mpr he₁)
          (by omega)
      have h := Step.diagnose (DiagnoseOutcome.raised e₁) now s₂
      rw [← h₃] at h
      rwa [hr] at h
    have step₄ : Step (Node.diagnose, s₃) (Node.diagnose, s₄) := by
      have hr : should_continue_after_diagnose s₄ = Node.diagnose :=
        route_diagnose_retry s₄
          (by rw [h₄err]; exact (optTruthy_some_iff e₂).mpr he₂)
          (by omega)
      have h := Step.diagnose (DiagnoseOutcome.raised e₂) now s₃
      rw [← h₄] at h
      rwa [hr] at h
    have step₅ : Step (Node.diagnose, s₄) (Node.store, s₅) := by
      have hr : should_continue_after_diagnose s₅ = Node.store :=
        route_diagnose_store s₅ (by rw [h₅err]; rfl)
      have h := Step.diagnose (DiagnoseOutcome.ok label res) now s₄
      rw [← h₅] at h
      rwa [hr] at h
    have step₆ : Step (Node.store, s₅) (Node.accumulate, s₆) := by
      have h := Step.store StoreOutcome.ok now s₅
      rwa [← h₆] at h
    have step₇ : Step (Node.accumulate, s₆) (Node.terminal, s₇) := by
      have h := Step.accumulate threshold cid emb mOk uOk s₆
      rwa [← h₇] at h
    exact List.chain'_cons.mpr ⟨step₁, List.chain'_cons.mpr ⟨step₂,
      List.chain'_cons.mpr ⟨step₃, List.chain'_cons.mpr ⟨step₄,
      List.chain'_cons.mpr ⟨step₅, List.chain'_cons.mpr ⟨step₆,
      List.chain'_cons.mpr ⟨step₇, List.chain'_singleton _⟩⟩⟩⟩⟩⟩⟩

/-- Witness for C7 at concrete inputs: the success part applied at the
sample state, and the two-failures-then-success run instantiated. -/
theorem diagnose_success_and_recovery_witness :
    (llmDiagnoser (DiagnoseOutcome.ok "resource" sampleDiagnosis) 3 "T1"
        sampleStateWithJob).diagnosis_result = some sampleDiagnosis ∧
    should_continue_after_diagnose
      (llmDiagnoser (DiagnoseOutcome.ok "resource" sampleDiagnosis) 3 "T1"
        sampleStateWithJob) = Node.store ∧
    ((knowledgeAccumulator (mkRat 8 10) "case_1" none true true
        (resultStorer StoreOutcome.ok "T1"
          (llmDiagnoser (DiagnoseOutcome.ok "resource" sampleDiagnosis) 3 "T1"
            (llmDiagnoser (DiagnoseOutcome.raised "oops2") 3 "T1"
              (llmDiagnoser (DiagnoseOutcome.raised "oops1") 3 "T1"
                (knowledgeRetriever (RetrieveOutcome.ok [] [])
                  (jobCollector (CollectOutcome.found sampleJob) "T1"
                    (initialState "T0")))))))).1).status =
      DiagnosisStatus.completed := by
  have ha := diagnose_success_and_recovery.1 sampleStateWithJob sampleJob
    "resource" sampleDiagnosis "T1" rfl
  have hb := diagnose_success_and_recovery.2 "T0" "T1" sampleJob
    (RetrieveOutcome.ok [] []) "oops1" "oops2" "resource" sampleDiagnosis
    (mkRat 8 10) "case_1" none true true _ _ _ _ _ _ _
    (by decide) (by decide) rfl rfl rfl rfl rfl rfl rfl
  exact ⟨ha.1, ha.2.2.2.2, hb.2.1⟩

/-! ## Claim C6: accumulation threshold -/

/-- Claim C6: below the confidence threshold the accumulate stage
writes nothing to either store; at or above the threshold (with the
embedding and both inserts succeeding) it writes exactly one case to
each store, the two rows carrying the same case_id, the MySQL row with
source_type=auto. -/
theorem accumulate_threshold_discipline (threshold : ℚ) (cid : String)
    (emb : Option (List ℚ)) (mOk uOk : Bool) (s : DiagnosisState)
    (ji : JobInfo) (d : DiagnosisResult)
    (hj : s.job_info = some ji) (hd : s.diagnosis_result = some d) :
    (d.confidence < threshold →
      knowledgeAccumulator threshold cid emb mOk uOk s = (s, [], [])) ∧
    (threshold ≤ d.confidence → ∀ v, emb = some v → mOk = true → uOk = true →
      ∃ mRow uRow,
        knowledgeAccumulator threshold cid emb mOk uOk s =
          (s, [mRow], [uRow]) ∧
        mRow.case_id = cid ∧ uRow.case_id = cid ∧
        uRow.source_type = "auto" ∧
        uRow.source_exception_id = some ji.exception_id) := by
  constructor
  · intro hlt
    simp [knowledgeAccumulator, hj, hd, hlt]
  · intro hge v hv hm hu
    subst hv hm hu
    refine ⟨milvus_insert_case cid v (orOther ji.error_type)
        (extract_error_pattern ji.error_message) d.root_cause d.suggested_fix,
      mysql_insert_knowledge_case cid (orOther ji.error_type)
        (extract_error_pattern ji.error_message) d.root_cause d.suggested_fix
        (some ji.exception_id) "auto", ?_, rfl, rfl, rfl, rfl⟩
    simp [knowledgeAccumulator, hj, hd, not_lt.mpr hge]

/-- Witness for C6 at the spec's scenario: threshold 0.8, one diagnosis
with confidence 0.9 (written to both stores) and one with confidence
0.5 (nothing written). -/
theorem accumulate_threshold_discipline_witness :
    knowledgeAccumulator (mkRat 8 10) "case_w" (some [1]) true true
      { sampleStoreReady with diagnosis_result := some { sampleDiagnosis with confidence := mkRat 5 10 } } =
      ({ sampleStoreReady with diagnosis_result := some { sampleDiagnosis with confidence := mkRat 5 10 } }, [], []) ∧
    ∃ mRow uRow,
      knowledgeAccumulator (mkRat 8 10) "case_w" (some [1]) true true
        sampleStoreReady = (sampleStoreReady, [mRow], [uRow]) ∧
      mRow.case_id = "case_w" ∧ uRow.case_id = "case_w" ∧
      uRow.source_type = "auto" := by
  constructor
  · exact (accumulate_threshold_discipline (mkRat 8 10) "case_w" (some [1])
      true true _ sampleJob
      { sampleDiagnosis with confidence := mkRat 5 10 } rfl rfl).1 (by decide)
  · obtain ⟨mRow, uRow, heq, hm, hu, hsrc, _⟩ :=
      (accumulate_threshold_discipline (mkRat 8 10) "case_w" (some [1])
        true true sampleStoreReady sampleJob sampleDiagnosis rfl rfl).2
        (by decide) [1] rfl rfl rfl
    exact ⟨mRow, uRow, heq, hm, hu, hsrc⟩

/-! ## Claim C4: terminal status iff end_time, over all reachable
states -/

theorem data_ne_nil_left (a b : String) (h : a.data ≠ []) :
    (a ++ b).data ≠ [] := by
  rw [String.data_append]
  intro hc
  exact h (List.append_eq_nil.mp hc).1

theorem step_preserves_configInv (c c' : Node × DiagnosisState)
    (h : ConfigInv c) (hs : Step c c') : ConfigInv c' := by
  obtain ⟨hinv, hend⟩ := h
  cases hs with
  | collect o now s =>
      have hend' : s.end_time = none := hend (Or.inl rfl)
      cases o with
      | found j =>
          refine ⟨?_, fun _ => by simpa [jobCollector] using hend'⟩
          simp [StateInv, jobCollector, hend']
      | empty =>
          refine ⟨by simp [StateInv, jobCollector], ?_⟩
          rintro (h | h | h) <;> revert h <;>
            simp only [should_continue_after_collect, jobCollector] <;>
            split <;> simp
      | raised e =>
          have hT : optTruthy (jobCollector (CollectOutcome.raised e) now s).error = true := by
            simp only [jobCollector]
            exact (optTruthy_some_iff _).mpr
              (prefixed_ne_empty "Collection error: " e (by decide))
          refine ⟨by simp [StateInv, jobCollector], ?_⟩
          rintro (h | h | h) <;> revert h <;>
            simp [should_continue_after_collect, hT]
  | retrieve o s =>
      have hend' : s.end_time = none := hend (Or.inr (Or.inl rfl))
      have hf := knowledgeRetriever_frame o s
      refine ⟨?_, fun _ => by rw [hf.2.2.2.2.1]; exact hend'⟩
      unfold StateInv at hinv ⊢
      rw [hf.2.2.2.1, hf.2.2.2.2.1]
      exact hinv
  | diagnose o now s =>
      have hend' : s.end_time = none := hend (Or.inr (Or.inr rfl))
      rcases hj : s.job_info with _ | ji
      · have hid : llmDiagnoser o 3 now s = s := by
          simp [llmDiagnoser, hj]
        rw [hid]
        exact ⟨hinv, fun _ => hend'⟩
      · cases o with
        | ok label res =>
            rw [llmDiagnoser_ok_eq s ji label res now hj]
            refine ⟨?_, fun _ => by simpa using hend'⟩
            simp [StateInv, hend']
        | raised e =>
            by_cases hrc : s.retry_count + 1 < 3
            · rw [llmDiagnoser_raised_of_lt s ji e now hj hrc]
              refine ⟨?_, fun _ => by simpa using hend'⟩
              unfold StateInv at hinv ⊢
              simpa using hinv
            · rw [llmDiagnoser_raised_of_max s ji e now hj (by omega)]
              refine ⟨by simp [StateInv], ?_⟩
              have hT : optTruthy (some ("Diagnosis failed after " ++ toString (s.retry_count + 1) ++ " retries: " ++ e)) = true := by
                refine (optTruthy_some_iff _).mpr (prefixed_ne_empty _ e ?_)
                exact data_ne_nil_left _ " retries: "
                  (data_ne_nil_left "Diagnosis failed after " _ (by decide))
              rintro (h | h | h) <;> revert h <;>
                simp [should_continue_after_diagnose, hT, hrc]
  | store o now s =>
      refine ⟨?_, ?_⟩
      · rcases hj : s.job_info with _ | ji
        · have hid : resultStorer o now s = s := by simp [resultStorer, hj]
          rw [hid]
          exact hinv
        · rcases hd : s.diagnosis_result with _ | d <;> cases o <;>
            simp [resultStorer, hj, hd, StateInv]
      · rintro (h | h | h) <;> simp at h
  | accumulate threshold cid emb mOk uOk s =>
      refine ⟨?_, ?_⟩
      · rw [knowledgeAccumulator_fst]
        exact hinv
      · rintro (h | h | h) <;> simp at h
  | handle_error now s =>
      refine ⟨by simp [StateInv, handle_error], ?_⟩
      rintro (h | h | h) <;> simp at h

theorem reachable_configInv (c : Node × DiagnosisState)
    (h : Reachable c) : ConfigInv c := by
  obtain ⟨t, hr⟩ := h
  induction hr with
  | refl => exact ⟨by simp [StateInv, initialState], fun _ => rfl⟩
  | tail _ hstep ih => exact step_preserves_configInv _ _ ih hstep

/-- Claim C4: in every reachable configuration of a workflow run, the
status is COMPLETED or FAILED exactly when end_time is set. -/
theorem status_terminal_iff_end_time (n : Node) (s : DiagnosisState)
    (h : Reachable (n, s)) :
    (s.status = DiagnosisStatus.completed ∨
     s.status = DiagnosisStatus.failed) ↔ s.end_time.isSome = true :=
  (reachable_configInv (n, s) h).1

/-- Witness for C4 at two concrete reachable configurations: the
initial state (neither side holds) and the state after draining an
empty queue (both sides hold). -/
theorem status_terminal_iff_end_time_witness :
    (((initialState "T0").status = DiagnosisStatus.completed ∨
      (initialState "T0").status = DiagnosisStatus.failed) ↔
      (initialState "T0").end_time.isSome = true) ∧
    (((jobCollector CollectOutcome.empty "T1" (initialState "T0")).status =
        DiagnosisStatus.completed ∨
      (jobCollector CollectOutcome.empty "T1" (initialState "T0")).status =
        DiagnosisStatus.failed) ↔
      (jobCollector CollectOutcome.empty "T1"
        (initialState "T0")).end_time.isSome = true) := by
  constructor
  · exact status_terminal_iff_end_time Node.collect (initialState "T0")
      ⟨"T0", Relation.ReflTransGen.refl⟩
  · have hroute : should_continue_after_collect
        (jobCollector CollectOutcome.empty "T1" (initialState "T0")) =
        Node.terminal := by decide
    have hstep := Step.collect CollectOutcome.empty "T1" (initialState "T0")
    rw [hroute] at hstep
    exact status_terminal_iff_end_time Node.terminal _
      ⟨"T0", Relation.ReflTransGen.tail Relation.ReflTransGen.refl hstep⟩

/-! ## Claim C9: generic lemmas about the re.sub scanner -/

theorem reSub_nil (m : List Char → Option Nat) (ph : List Char) :
    reSub m ph [] = [] := by
  rw [reSub]

theorem reSub_cons_some (m : List Char → Option Nat) (ph : List Char)
    (c : Char) (rest : List Char) (k : Nat) (h : m (c :: rest) = some k) :
    reSub m ph (c :: rest) = ph ++ reSub m ph (rest.drop (k - 1)) := by
  rw [reSub]
  simp [h]

theorem reSub_cons_none (m : List Char → Option Nat) (ph : List Char)
    (c : Char) (rest : List Char) (h : m (c :: rest) = none) :
    reSub m ph (c :: rest) = c :: reSub m ph rest := by
  rw [reSub]
  simp [h]

/-- Every character of the output is a placeholder character or an
input character. -/
theorem reSub_mem (m : List Char → Option Nat) (ph : List Char)
    (l : List Char) : ∀ x ∈ reSub m ph l, x ∈ ph ∨ x ∈ l := by
  refine reSub.induct m ph (fun l => ∀ x ∈ reSub m ph l, x ∈ ph ∨ x ∈ l)
    ?_ ?_ ?_ l
  · simp [reSub_nil]
  · intro c rest k hm ih x hx
    rw [reSub_cons_some m ph c rest k hm] at hx
    rcases List.mem_append.mp hx with hx | hx
    · exact Or.inl hx
    · rcases ih x hx with hx | hx
      · exact Or.inl hx
      · exact Or.inr (List.mem_cons_of_mem c
          ((List.drop_sublist _ _).subset hx))
  · intro c rest hm ih x hx
    rw [reSub_cons_none m ph c rest hm] at hx
    rcases List.mem_cons.mp hx with hx | hx
    · exact Or.inr (hx ▸ List.mem_cons_self c rest)
    · rcases ih x hx with hx | hx
      · exact Or.inl hx
      · exact Or.inr (List.mem_cons_of_mem c hx)

/-- Characters of the output satisfy P when placeholder characters do
and every copied character (one where the matcher failed) does. -/
theorem reSub_forall (m : List Char → Option Nat) (ph : List Char)
    (P : Char → Prop) (hph : ∀ x ∈ ph, P x)
    (hcopy : ∀ c rest, m (c :: rest) = none → P c)
    (l : List Char) : ∀ x ∈ reSub m ph l, P x := by
  refine reSub.induct m ph (fun l => ∀ x ∈ reSub m ph l, P x) ?_ ?_ ?_ l
  · simp [reSub_nil]
  · intro c rest k hm ih x hx
    rw [reSub_cons_some m ph c rest k hm] at hx
    rcases List.mem_append.mp hx with hx | hx
    · exact hph x hx
    · exact ih x hx
  · intro c rest hm ih x hx
    rw [reSub_cons_none m ph c rest hm] at hx
    rcases List.mem_cons.mp hx with hx | hx
    · exact hx ▸ hcopy c rest hm
    · exact ih x hx

/-- If the matcher fails on every suffix, the scan is the identity. -/
theorem reSub_id (m : List Char → Option Nat) (ph : List Char)
    (l : List Char)
    (h : ∀ c rest, (c :: rest) <:+ l → m (c :: rest) = none) :
    reSub m ph l = l := by
  induction l with
  | nil => exact reSub_nil m ph
  | cons c rest ih =>
      rw [reSub_cons_none m ph c rest (h c rest ⟨[], rfl⟩)]
      congr 1
      exact ih fun c' r' hsuf =>
        h c' r' (hsuf.trans (List.suffix_cons c rest))

/-- The output is the input, or a copied prefix of the input followed
by the placeholder's opening character. -/
theorem reSub_shape (m : List Char → Option Nat) (phtl : List Char)
    (l : List Char) :
    reSub m ('<' :: phtl) l = l ∨
      ∃ a b, (∃ u, a ++ u = l) ∧
        reSub m ('<' :: phtl) l = a ++ '<' :: b := by
  refine reSub.induct m ('<' :: phtl)
    (fun l => reSub m ('<' :: phtl) l = l ∨
      ∃ a b, (∃ u, a ++ u = l) ∧
        reSub m ('<' :: phtl) l = a ++ '<' :: b) ?_ ?_ ?_ l
  · exact Or.inl (reSub_nil _ _)
  · intro c rest k hm _
    refine Or.inr ⟨[], phtl ++ reSub m ('<' :: phtl) (rest.drop (k - 1)),
      ⟨c :: rest, rfl⟩, ?_⟩
    rw [reSub_cons_some _ _ _ _ _ hm]
    rfl
  · intro c rest hm ih
    rcases ih with hid | ⟨a, b, ⟨u, hu⟩, hR⟩
    · exact Or.inl (by rw [reSub_cons_none _ _ _ _ hm, hid])
    · refine Or.inr ⟨c :: a, b, ⟨u, by rw [List.cons_append, hu]⟩, ?_⟩
      rw [reSub_cons_none _ _ _ _ hm, hR]
      rfl

/-- Decomposing a suffix of an append. -/
theorem suffix_append_cases {α : Type} (x y t : List α)
    (h : t <:+ x ++ y) :
    t <:+ y ∨ ∃ p, p <:+ x ∧ p ≠ [] ∧ t = p ++ y := by
  induction x with
  | nil => exact Or.inl (by simpa using h)
  | cons d x' ih =>
      rw [List.cons_append] at h
      rcases List.suffix_cons_iff.mp h with hteq | hsuf
      · exact Or.inr ⟨d :: x', ⟨[], rfl⟩, by simp,
          by rw [hteq, List.cons_append]⟩
      · rcases ih hsuf with h1 | ⟨p, hp, hpne, hteq⟩
        · exact Or.inl h1
        · exact Or.inr ⟨p, hp.trans (List.suffix_cons d x'), hpne, hteq⟩

/-- The window argument: a matcher that only looks at its first w
characters, and that fails whenever an opening placeholder bracket
appears in that window, still fails after the tail beyond some copied
prefix is replaced by placeholder-initial material. -/
theorem window_none (m : List Char → Option Nat) (w : Nat)
    (hcongr : ∀ l₁ l₂, l₁.take w = l₂.take w →
      (m l₁ = none ↔ m l₂ = none))
    (hlt : ∀ l, '<' ∈ l.take w → m l = none)
    (c : Char) (rest a b : List Char) (hpre : ∃ u, a ++ u = rest)
    (h : m (c :: rest) = none) :
    m (c :: (a ++ '<' :: b)) = none := by
  obtain ⟨u, hu⟩ := hpre
  by_cases hlen : w ≤ a.length + 1
  · refine (hcongr _ _ ?_).mpr h
    cases w with
    | zero => rfl
    | succ v =>
        have hv : v ≤ a.length := by omega
        rw [List.take_succ_cons, List.take_succ_cons]
        congr 1
        rw [← hu, List.take_append_eq_append_take,
          List.take_append_eq_append_take,
          show v - a.length = 0 by omega]
        rfl
  · apply hlt
    cases w with
    | zero => omega
    | succ v =>
        rw [List.take_succ_cons]
        refine List.mem_cons_of_mem _ ?_
        rw [List.take_append_eq_append_take]
        refine List.mem_append.mpr (Or.inr ?_)
        rw [show v - a.length = (v - a.length - 1) + 1 by omega,
          List.take_succ_cons]
        exact List.mem_cons_self _ _

/-- One pass of the scanner leaves no occurrence of its own pattern:
the matcher fails on every suffix of the output. -/
theorem reSub_no_match_self (m : List Char → Option Nat)
    (phtl : List Char) (w : Nat)
    (hnil : m [] = none)
    (hphfail : ∀ p u, p <:+ ('<' :: phtl) → p ≠ [] → m (p ++ u) = none)
    (hcongr : ∀ l₁ l₂, l₁.take w = l₂.take w →
      (m l₁ = none ↔ m l₂ = none))
    (hlt : ∀ l, '<' ∈ l.take w → m l = none) :
    ∀ (l t : List Char), t <:+ reSub m ('<' :: phtl) l → m t = none := by
  suffices H : ∀ (N : Nat) (l : List Char), l.length ≤ N →
      ∀ t, t <:+ reSub m ('<' :: phtl) l → m t = none by
    exact fun l t ht => H l.length l le_rfl t ht
  intro N
  induction N with
  | zero =>
      intro l hl t ht
      rw [List.length_eq_zero.mp (Nat.le_zero.mp hl), reSub_nil] at ht
      rw [List.suffix_nil.mp ht]
      exact hnil
  | succ N ih =>
      intro l hl t ht
      cases l with
      | nil =>
          rw [reSub_nil] at ht
          rw [List.suffix_nil.mp ht]
          exact hnil
      | cons c rest =>
          rcases hm : m (c :: rest) with _ | k
          · rw [reSub_cons_none _ _ _ _ hm] at ht
            rcases List.suffix_cons_iff.mp ht with hteq | htR
            · rcases reSub_shape m phtl rest with hR | ⟨a, b, hpre, hR⟩
              · rw [hteq, hR]
                exact hm
              · rw [hteq, hR]
                exact window_none m w hcongr hlt c rest a b hpre hm
            · exact ih rest (by simp at hl; omega) t htR
          · rw [reSub_cons_some _ _ _ _ _ hm] at ht
            rcases suffix_append_cases _ _ _ ht with htR | ⟨p, hp, hpne, hteq⟩
            · refine ih (rest.drop (k - 1))
                (by simp [List.length_drop] at hl ⊢; omega) t htR
            · rw [hteq]
              exact hphfail p _ hp hpne

/-- A pass of one scanner preserves the absence of another matcher's
occurrences, provided that matcher only looks at a w-window, dies on
the placeholder bracket in its window, and dies at every nonempty
suffix of the placeholder. -/
theorem reSub_no_match_other (m m' : List Char → Option Nat)
    (phtl : List Char) (w : Nat)
    (hphfail : ∀ p u, p <:+ ('<' :: phtl) → p ≠ [] → m' (p ++ u) = none)
    (hcongr : ∀ l₁ l₂, l₁.take w = l₂.take w →
      (m' l₁ = none ↔ m' l₂ = none))
    (hlt : ∀ l, '<' ∈ l.take w → m' l = none) :
    ∀ l, (∀ t, t <:+ l → m' t = none) →
      ∀ t, t <:+ reSub m ('<' :: phtl) l → m' t = none := by
  suffices H : ∀ (N : Nat) (l : List Char), l.length ≤ N →
      (∀ t, t <:+ l → m' t = none) →
      ∀ t, t <:+ reSub m ('<' :: phtl) l → m' t = none by
    exact fun l hin t ht => H l.length l le_rfl hin t ht
  intro N
  induction N with
  | zero =>
      intro l hl hin t ht
      rw [List.length_eq_zero.mp (Nat.le_zero.mp hl), reSub_nil] at ht
      rw [List.suffix_nil.mp ht]
      exact hin [] ⟨[], by simp [List.length_eq_zero.mp (Nat.le_zero.mp hl)]⟩
  | succ N ih =>
      intro l hl hin t ht
      cases l with
      | nil =>
          rw [reSub_nil] at ht
          rw [List.suffix_nil.mp ht]
          exact hin [] ⟨[], rfl⟩
      | cons c rest =>
          have hinRest : ∀ t, t <:+ rest → m' t = none :=
            fun t' ht' => hin t' (ht'.trans (List.suffix_cons c rest))
          rcases hm : m (c :: rest) with _ | k
          · rw [reSub_cons_none _ _ _ _ hm] at ht
            rcases List.suffix_cons_iff.mp ht with hteq | htR
            · rcases reSub_shape m phtl rest with hR | ⟨a, b, hpre, hR⟩
              · rw [hteq, hR]
                exact hin _ ⟨[], rfl⟩
              · rw [hteq, hR]
                exact window_none m' w hcongr hlt c rest a b hpre
                  (hin _ ⟨[], rfl⟩)
            · exact ih rest (by simp at hl; omega) hinRest t htR
          · rw [reSub_cons_some _ _ _ _ _ hm] at ht
            rcases suffix_append_cases _ _ _ ht with htR | ⟨p, hp, hpne, hteq⟩
            · refine ih (rest.drop (k - 1))
                (by simp [List.length_drop] at hl ⊢; omega)
                (fun t' ht' =>
                  hinRest t' (ht'.trans (List.drop_suffix _ _))) t htR
            · rw [hteq]
              exact hphfail p _ hp hpne

/-- Truncation preserves no-occurrence for matchers that cannot start
succeeding when the input is cut short. -/
theorem take_no_match (m : List Char → Option Nat)
    (hfront : ∀ t r, m (t ++ r) = none → m t = none)
    (l : List Char) (n : Nat) (h : ∀ t, t <:+ l → m t = none) :
    ∀ t, t <:+ l.take n → m t = none := by
  intro t ht
  obtain ⟨p, hp⟩ := ht
  have hsuf : (t ++ l.drop n) <:+ l := by
    refine ⟨p, ?_⟩
    rw [← List.append_assoc, hp, List.take_append_drop]
  exact hfront t (l.drop n) (h _ hsuf)

/-! ## Claim C9: facts about the individual matchers -/

theorem matchNum_none_head (c : Char) (rest : List Char)
    (h : matchNum (c :: rest) = none) : c.isDigit = false := by
  by_cases hd : c.isDigit
  · simp [matchNum, hd] at h
  · simpa using hd

theorem matchNum_none_of_nodigit (c : Char) (rest : List Char)
    (h : c.isDigit = false) : matchNum (c :: rest) = none := by
  simp [matchNum, h]

theorem matchUuid_nil : matchUuid [] = none := by
  simp [matchUuid]

theorem matchUuid_cond (l : List Char) (h : matchUuid l ≠ none) :
    36 ≤ l.length
    ∧ (l.take 8).all isHexLower = true
    ∧ (l.drop 8).take 1 = ['-']
    ∧ ((l.drop 9).take 4).all isHexLower = true
    ∧ (l.drop 13).take 1 = ['-']
    ∧ ((l.drop 14).take 4).all isHexLower = true
    ∧ (l.drop 18).take 1 = ['-']
    ∧ ((l.drop 19).take 4).all isHexLower = true
    ∧ (l.drop 23).take 1 = ['-']
    ∧ ((l.drop 24).take 12).all isHexLower = true := by
  by_contra hc
  exact h (by simp only [matchUuid, if_neg hc])

theorem matchUuid_window_chars (l : List Char) (h : matchUuid l ≠ none) :
    ∀ c ∈ l.take 36, isHexLower c = true ∨ c = '-' := by
  obtain ⟨hlen, h8, d8, h9, d13, h14, d18, h19, d23, h24⟩ :=
    matchUuid_cond l h
  intro c hc
  have e1 : l.take 36 = l.take 24 ++ (l.drop 24).take 12 := by
    rw [show (36 : ℕ) = 24 + 12 from rfl]
    exact List.take_add l 24 12
  have e2 : l.take 24 = l.take 23 ++ (l.drop 23).take 1 := by
    rw [show (24 : ℕ) = 23 + 1 from rfl]
    exact List.take_add l 23 1
  have e3 : l.take 23 = l.take 19 ++ (l.drop 19).take 4 := by
    rw [show (23 : ℕ) = 19 + 4 from rfl]
    exact List.take_add l 19 4
  have e4 : l.take 19 = l.take 18 ++ (l.drop 18).take 1 := by
    rw [show (19 : ℕ) = 18 + 1 from rfl]
    exact List.take_add l 18 1
  have e5 : l.take 18 = l.take 14 ++ (l.drop 14).take 4 := by
    rw [show (18 : ℕ) = 14 + 4 from rfl]
    exact List.take_add l 14 4
  have e6 : l.take 14 = l.take 13 ++ (l.drop 13).take 1 := by
    rw [show (14 : ℕ) = 13 + 1 from rfl]
    exact List.take_add l 13 1
  have e7 : l.take 13 = l.take 9 ++ (l.drop 9).take 4 := by
    rw [show (13 : ℕ) = 9 + 4 from rfl]
    exact List.take_add l 9 4
  have e8 : l.take 9 = l.take 8 ++ (l.drop 8).take 1 := by
    rw [show (9 : ℕ) = 8 + 1 from rfl]
    exact List.take_add l 8 1
  rw [e1, e2, e3, e4, e5, e6, e7, e8] at hc
  simp only [List.mem_append] at hc
  rcases hc with (((((((hc | hc) | hc) | hc) | hc) | hc) | hc) | hc) | hc
  · exact Or.inl (List.all_eq_true.mp h8 c hc)
  · rw [d8] at hc
    exact Or.inr (List.mem_singleton.mp hc)
  · exact Or.inl (List.all_eq_true.mp h9 c hc)
  · rw [d13] at hc
    exact Or.inr (List.mem_singleton.mp hc)
  · exact Or.inl (List.all_eq_true.mp h14 c hc)
  · rw [d18] at hc
    exact Or.inr (List.mem_singleton.mp hc)
  · exact Or.inl (List.all_eq_true.mp h19 c hc)
  · rw [d23] at hc
    exact Or.inr (List.mem_singleton.mp hc)
  · exact Or.inl (List.all_eq_true.mp h24 c hc)

theorem matchUuid_congr (l₁ l₂ : List Char) (h : l₁.take 36 = l₂.take 36) :
    matchUuid l₁ = matchUuid l₂ := by
  have hlen : 36 ≤ l₁.length ↔ 36 ≤ l₂.length := by
    have hh := congrArg List.length h
    simp only [List.length_take] at hh
    omega
  have piece : ∀ i n : ℕ, i + n ≤ 36 →
      (l₁.drop i).take n = (l₂.drop i).take n := by
    intro i n hin
    have hh := congrArg (fun x => (x.drop i).take n) h
    simp only [List.drop_take, List.take_take] at hh
    rwa [show n ⊓ (36 - i) = n by omega] at hh
  have e0 : l₁.take 8 = l₂.take 8 := by
    have hh := piece 0 8 (by omega)
    simpa using hh
  have e1 := piece 8 1 (by omega)
  have e2 := piece 9 4 (by omega)
  have e3 := piece 13 1 (by omega)
  have e4 := piece 14 4 (by omega)
  have e5 := piece 18 1 (by omega)
  have e6 := piece 19 4 (by omega)
  have e7 := piece 23 1 (by omega)
  have e8 := piece 24 12 (by omega)
  simp only [matchUuid]
  refine if_congr ?_ rfl rfl
  rw [e0, e1, e2, e3, e4, e5, e6, e7, e8]
  exact and_congr hlen Iff.rfl

theorem matchUuid_none_of_lt (l : List Char) (h : '<' ∈ l.take 36) :
    matchUuid l = none := by
  rcases hq : matchUuid l with _ | k
  · rfl
  · exfalso
    rcases matchUuid_window_chars l (by rw [hq]; simp) '<' h with hh | hh
    · exact absurd hh (by decide)
    · exact absurd hh (by decide)

theorem matchUuid_none_of_head (c : Char) (u : List Char)
    (h : isHexLower c = false) : matchUuid (c :: u) = none := by
  rcases hq : matchUuid (c :: u) with _ | k
  · rfl
  · exfalso
    obtain ⟨_, h8, _⟩ := matchUuid_cond (c :: u) (by rw [hq]; simp)
    have hc8 : c ∈ (c :: u).take 8 := by
      rw [show (8 : ℕ) = 7 + 1 from rfl, List.take_succ_cons]
      exact List.mem_cons_self c _
    have := List.all_eq_true.mp h8 c hc8
    rw [h] at this
    cases this

theorem matchUuid_front (t r : List Char) (h : matchUuid (t ++ r) = none) :
    matchUuid t = none := by
  rcases hq : matchUuid t with _ | k
  · rfl
  · exfalso
    obtain ⟨hlen, _⟩ := matchUuid_cond t (by rw [hq]; simp)
    have htake : (t ++ r).take 36 = t.take 36 := by
      rw [List.take_append_eq_append_take, show 36 - t.length = 0 by omega]
      simp
    rw [matchUuid_congr _ _ htake, hq] at h
    cases h

theorem matchTs_cond (l : List Char) (h : matchTs l ≠ none) :
    19 ≤ l.length
    ∧ (l.take 4).all Char.isDigit = true
    ∧ (l.drop 4).take 1 = ['-']
    ∧ ((l.drop 5).take 2).all Char.isDigit = true
    ∧ (l.drop 7).take 1 = ['-']
    ∧ ((l.drop 8).take 2).all Char.isDigit = true
    ∧ ((l.drop 10).take 1 = ['T'] ∨ (l.drop 10).take 1 = [' '])
    ∧ ((l.drop 11).take 2).all Char.isDigit = true
    ∧ (l.drop 13).take 1 = [':']
    ∧ ((l.drop 14).take 2).all Char.isDigit = true
    ∧ (l.drop 16).take 1 = [':']
    ∧ ((l.drop 17).take 2).all Char.isDigit = true := by
  by_contra hc
  exact h (by simp only [matchTs, if_neg hc])

theorem matchTs_none_of_head (c : Char) (u : List Char)
    (h : c.isDigit = false) : matchTs (c :: u) = none := by
  rcases hq : matchTs (c :: u) with _ | k
  · rfl
  · exfalso
    obtain ⟨_, h4, _⟩ := matchTs_cond (c :: u) (by rw [hq]; simp)
    have hc4 : c ∈ (c :: u).take 4 := by
      rw [show (4 : ℕ) = 3 + 1 from rfl, List.take_succ_cons]
      exact List.mem_cons_self c _
    have := List.all_eq_true.mp h4 c hc4
    rw [h] at this
    cases this

theorem matchAddr_none_of_head (c : Char) (u : List Char) (h : c ≠ '0') :
    matchAddr (c :: u) = none := by
  rcases u with _ | ⟨c1, _ | ⟨c2, rest⟩⟩
  · rfl
  · rfl
  · simp [matchAddr, h]

theorem matchPath_none_of_head (c : Char) (u : List Char) (h : c ≠ '/') :
    matchPath (c :: u) = none := by
  rcases u with _ | ⟨c1, rest⟩
  · rfl
  · simp [matchPath, h]

theorem matchPath_none_congr (l₁ l₂ : List Char)
    (h : l₁.take 2 = l₂.take 2) :
    (matchPath l₁ = none ↔ matchPath l₂ = none) := by
  rcases l₁ with _ | ⟨a, _ | ⟨b, u⟩⟩ <;> rcases l₂ with _ | ⟨a', _ | ⟨b', u'⟩⟩
  · exact Iff.rfl
  · exact absurd (h : ([] : List Char) = [a']) (by simp)
  · exact absurd (h : ([] : List Char) = [a', b']) (by simp)
  · exact absurd (h : ([a] : List Char) = []) (by simp)
  · exact Iff.rfl
  · exact absurd (h : ([a] : List Char) = [a', b']) (by simp)
  · exact absurd (h : ([a, b] : List Char) = []) (by simp)
  · exact absurd (h : ([a, b] : List Char) = [a']) (by simp)
  · have h' : ([a, b] : List Char) = [a', b'] := h
    injection h' with ha hbl
    injection hbl with hb _
    subst ha hb
    by_cases hcond : a = '/' ∧ isPathChar b = true
    · simp [matchPath, hcond]
    · simp [matchPath, hcond]

theorem matchPath_none_of_lt (l : List Char) (h : '<' ∈ l.take 2) :
    matchPath l = none := by
  rcases l with _ | ⟨a, _ | ⟨b, u⟩⟩
  · rfl
  · rfl
  · have h' : '<' ∈ ([a, b] : List Char) := h
    rcases List.mem_cons.mp h' with ha | hb
    · rw [← ha]
      exact matchPath_none_of_head '<' _ (by decide)
    · have hb' : '<' = b := List.mem_singleton.mp hb
      simp only [matchPath]
      rw [if_neg]
      rintro ⟨_, hpc⟩
      rw [← hb'] at hpc
      exact absurd hpc (by decide)

theorem matchPath_front (t r : List Char) (h : matchPath (t ++ r) = none) :
    matchPath t = none := by
  rcases t with _ | ⟨a, _ | ⟨b, u⟩⟩
  · rfl
  · rfl
  · simp only [List.cons_append] at h
    simp only [matchPath] at h ⊢
    by_cases hcond : a = '/' ∧ isPathChar b = true
    · rw [if_pos hcond] at h
      cases h
    · rw [if_neg hcond]

/-! ## Claim C9: assembling the substitution passes -/

theorem uuid_phfail : ∀ p u : List Char, p <:+ ('<' :: "UUID>".data) →
    p ≠ [] → matchUuid (p ++ u) = none := by
  intro p u hp hpne
  rcases p with _ | ⟨c, p'⟩
  · exact absurd rfl hpne
  · rw [List.cons_append]
    exact matchUuid_none_of_head c _
      ((by decide :
        ∀ x ∈ ('<' :: "UUID>".data : List Char), isHexLower x = false)
        c (hp.subset (List.mem_cons_self c p')))

theorem path_phfail_uuid : ∀ p u : List Char, p <:+ ('<' :: "PATH>".data) →
    p ≠ [] → matchUuid (p ++ u) = none := by
  intro p u hp hpne
  rcases p with _ | ⟨c, p'⟩
  · exact absurd rfl hpne
  · rw [List.cons_append]
    exact matchUuid_none_of_head c _
      ((by decide :
        ∀ x ∈ ('<' :: "PATH>".data : List Char), isHexLower x = false)
        c (hp.subset (List.mem_cons_self c p')))

theorem path_phfail : ∀ p u : List Char, p <:+ ('<' :: "PATH>".data) →
    p ≠ [] → matchPath (p ++ u) = none := by
  intro p u hp hpne
  rcases p with _ | ⟨c, p'⟩
  · exact absurd rfl hpne
  · rw [List.cons_append]
    exact matchPath_none_of_head c _
      ((by decide : ∀ x ∈ ('<' :: "PATH>".data : List Char), x ≠ '/')
        c (hp.subset (List.mem_cons_self c p')))

theorem numSub_nodigit (l : List Char) :
    ∀ c ∈ numSub l, c.isDigit = false :=
  reSub_forall matchNum ("<NUM>".data) (fun c => c.isDigit = false)
    (by decide) (fun c rest h => matchNum_none_head c rest h) l

theorem uuidSub_nodigit (l : List Char)
    (h : ∀ c ∈ l, c.isDigit = false) :
    ∀ c ∈ uuidSub l, c.isDigit = false := by
  intro c hc
  rcases reSub_mem matchUuid ("<UUID>".data) l c hc with hm | hm
  · exact (by decide :
      ∀ x ∈ ("<UUID>".data : List Char), Char.isDigit x = false) c hm
  · exact h c hm

theorem pathSub_nodigit (l : List Char)
    (h : ∀ c ∈ l, c.isDigit = false) :
    ∀ c ∈ pathSub l, c.isDigit = false := by
  intro c hc
  rcases reSub_mem matchPath ("<PATH>".data) l c hc with hm | hm
  · exact (by decide :
      ∀ x ∈ ("<PATH>".data : List Char), Char.isDigit x = false) c hm
  · exact h c hm

theorem numSub_id (l : List Char) (h : ∀ c ∈ l, c.isDigit = false) :
    numSub l = l :=
  reSub_id _ _ l fun c rest hsuf =>
    matchNum_none_of_nodigit c rest
      (h c (hsuf.subset (List.mem_cons_self c rest)))

theorem tsSub_id (l : List Char) (h : ∀ c ∈ l, c.isDigit = false) :
    tsSub l = l :=
  reSub_id _ _ l fun c rest hsuf =>
    matchTs_none_of_head c rest
      (h c (hsuf.subset (List.mem_cons_self c rest)))

theorem addrSub_id (l : List Char) (h : ∀ c ∈ l, c.isDigit = false) :
    addrSub l = l :=
  reSub_id _ _ l fun c rest hsuf =>
    matchAddr_none_of_head c rest
      (fun hc => absurd (hc ▸ h c (hsuf.subset (List.mem_cons_self c rest)))
        (by decide))

theorem uuidSub_id (l : List Char)
    (h : ∀ t, t <:+ l → matchUuid t = none) : uuidSub l = l :=
  reSub_id _ _ l fun _ _ hsuf => h _ hsuf

theorem pathSub_id (l : List Char)
    (h : ∀ t, t <:+ l → matchPath t = none) : pathSub l = l :=
  reSub_id _ _ l fun _ _ hsuf => h _ hsuf

theorem uuidSub_no_uuid (l : List Char) :
    ∀ t, t <:+ uuidSub l → matchUuid t = none := by
  intro t ht
  have hrw : uuidSub l = reSub matchUuid ('<' :: "UUID>".data) l := rfl
  rw [hrw] at ht
  exact reSub_no_match_self matchUuid ("UUID>".data) 36 matchUuid_nil
    uuid_phfail (fun l₁ l₂ hh => by rw [matchUuid_congr l₁ l₂ hh])
    matchUuid_none_of_lt l t ht

theorem pathSub_no_uuid (l : List Char)
    (h : ∀ t, t <:+ l → matchUuid t = none) :
    ∀ t, t <:+ pathSub l → matchUuid t = none := by
  intro t ht
  have hrw : pathSub l = reSub matchPath ('<' :: "PATH>".data) l := rfl
  rw [hrw] at ht
  exact reSub_no_match_other matchPath matchUuid ("PATH>".data) 36
    path_phfail_uuid (fun l₁ l₂ hh => by rw [matchUuid_congr l₁ l₂ hh])
    matchUuid_none_of_lt l h t ht

theorem pathSub_no_path (l : List Char) :
    ∀ t, t <:+ pathSub l → matchPath t = none := by
  intro t ht
  have hrw : pathSub l = reSub matchPath ('<' :: "PATH>".data) l := rfl
  rw [hrw] at ht
  exact reSub_no_match_self matchPath ("PATH>".data) 2 rfl
    path_phfail matchPath_none_congr matchPath_none_of_lt l t ht

/-- Claim C9: the error-pattern generalization of
KnowledgeAccumulator._extract_error_pattern is idempotent: applying
the substitution-and-cap pass twice yields the same output as applying
it once. -/
theorem extract_error_pattern_idempotent (msg : String) :
    extract_error_pattern (extract_error_pattern msg) =
      extract_error_pattern msg := by
  have hndB : ∀ c ∈ uuidSub (numSub msg.data), c.isDigit = false :=
    uuidSub_nodigit _ (numSub_nodigit _)
  have hinner : extract_error_pattern msg =
      String.mk ((pathSub (uuidSub (numSub msg.data))).take 2000) := by
    unfold extract_error_pattern
    rw [tsSub_id _ hndB, addrSub_id _ hndB]
  have hCnd : ∀ c ∈ pathSub (uuidSub (numSub msg.data)), c.isDigit = false :=
    pathSub_nodigit _ hndB
  have hCnu : ∀ t, t <:+ pathSub (uuidSub (numSub msg.data)) →
      matchUuid t = none :=
    pathSub_no_uuid _ (uuidSub_no_uuid (numSub msg.data))
  have hCnp : ∀ t, t <:+ pathSub (uuidSub (numSub msg.data)) →
      matchPath t = none :=
    pathSub_no_path _
  have hynd : ∀ c ∈ (pathSub (uuidSub (numSub msg.data))).take 2000,
      c.isDigit = false :=
    fun c hc => hCnd c ((List.take_sublist _ _).subset hc)
  have hynu := take_no_match matchUuid matchUuid_front _ 2000 hCnu
  have hynp := take_no_match matchPath matchPath_front _ 2000 hCnp
  rw [hinner]
  unfold extract_error_pattern
  show String.mk ((pathSub (addrSub (tsSub (uuidSub (numSub
      ((pathSub (uuidSub (numSub msg.data))).take 2000)))))).take 2000) = _
  rw [numSub_id _ hynd, uuidSub_id _ hynu, tsSub_id _ hynd,
    addrSub_id _ hynd, pathSub_id _ hynp, List.take_take,
    show (2000 : ℕ) ⊓ 2000 = 2000 by omega]

end OceanusAgent
